import Mathlib

/-!  Verification of the SKU spreadsheet consolidation program (`sku.py`).

Modelling conventions of this shallow embedding: raw spreadsheet cell
values are strings (the program applies Python `str(value)` before every
use of a raw cell), Python floats are idealized as exact rationals,
pandas data frames become lists of rows over an ordered column list, the
`NaN` "no data" marker is an explicit cell constructor, and an openpyxl
sheet is a pair of header rows followed by the data rows.  -/

/-- Numeric value of a decimal digit character: `'0'` maps to 0, …, `'9'` to 9. -/
def digitVal (c : Char) : Nat := c.toNat - 48

/-- Value of a big-endian list of decimal digit characters. -/
def digitsVal (l : List Char) : Nat := l.foldl (fun a c => 10 * a + digitVal c) 0

/-- The decimal digit character for `d < 10`. -/
def digitChar (d : Nat) : Char := Char.ofNat (48 + d)

/-- Fuelled decimal printer for naturals; fuel `n + 1` always suffices for `n`. -/
def natDigitsAux : Nat → Nat → List Char
  | 0, _ => []
  | fuel + 1, n =>
    if n < 10 then [digitChar n]
    else natDigitsAux fuel (n / 10) ++ [digitChar (n % 10)]

/-- Decimal digit list of a natural number. -/
def natDigits (n : Nat) : List Char := natDigitsAux (n + 1) n

/-- Models Python `str(i)` on a nonnegative integer. -/
def natToStr (n : Nat) : String := String.mk (natDigits n)

/-- Python `str.isdigit` on an ASCII string: nonempty and all decimal digits. -/
def pyIsDigit (s : String) : Bool := !s.data.isEmpty && s.data.all Char.isDigit

/-- Models Python `int(k)` on the canonical decimal key strings the program
stores in its timestamp registry (every key is created by `str(i)`; other
strings are mapped to 0 here, where Python would raise). -/
def pyInt (s : String) : Nat := if pyIsDigit s then digitsVal s.data else 0

/-- Models Python `value.replace(",", "")`: removal of every comma. -/
def stripCommas (s : String) : String := String.mk (s.data.filter (fun c => c ≠ ','))

/-- Models Python `str.strip()` on ASCII whitespace. -/
def pyStrip (s : String) : String :=
  String.mk (((s.data.dropWhile Char.isWhitespace).reverse.dropWhile
    Char.isWhitespace).reverse)

/-- The comma-stripped, whitespace-trimmed string every normalizer starts from. -/
def cleaned (s : String) : String := pyStrip (stripCommas s)

/-- Models Python `s.zfill(w)` on an unsigned digit string. -/
def pyZfill (s : String) (w : Nat) : String :=
  String.mk (List.replicate (w - s.data.length) '0' ++ s.data)

/-- Core of decimal-literal parsing: digits, an optional point, digits. -/
def parseDecimalCore (cs : List Char) : Option ℚ :=
  let ip := cs.takeWhile Char.isDigit
  match cs.dropWhile Char.isDigit with
  | [] => if ip.isEmpty then none else some (digitsVal ip : ℚ)
  | r :: fp =>
    if r = '.' then
      if fp.all Char.isDigit && !(ip.isEmpty && fp.isEmpty) then
        some ((digitsVal ip : ℚ) + (digitsVal fp : ℚ) / 10 ^ fp.length)
      else none
    else none

/-- Sign handling of decimal-literal parsing, over the character list. -/
def pyFloatL : List Char → Option ℚ
  | [] => none
  | c :: rest =>
    if c = '+' then parseDecimalCore rest
    else if c = '-' then (parseDecimalCore rest).map (fun q => -q)
    else parseDecimalCore (c :: rest)

/-- Models Python `float(s)` on finite decimal literals (optional sign,
digits, optional fractional part), the fragment this program's data goes
through; rationals stand in for IEEE doubles, and the exotic accepted forms
(exponents, `inf`, `nan`, underscores, non-ASCII digits) are outside the
modelled fragment.  `none` models a raised `ValueError`. -/
def pyFloat (s : String) : Option ℚ := pyFloatL s.data

/-- `format_add` from `sku.py` lines 30–48: sentinel `0.0001` for the zero
forms, 4-digit implied fraction for pure digit strings, direct float parse
otherwise, `0.0` on parse failure. -/
def format_add (value : String) : ℚ :=
  let s := cleaned value
  if s = "" ∨ s = "0" ∨ s = "0.0" then 1 / 10000
  else if pyIsDigit s then
    if 4 < s.data.length then
      (pyFloat (String.mk (s.data.take (s.data.length - 4)) ++ "." ++
        String.mk (s.data.drop (s.data.length - 4)))).getD 0
    else (pyFloat ("0." ++ pyZfill s 4)).getD 0
  else (pyFloat s).getD 0

/-- `format_free_rod` from `sku.py` lines 50–64, kept with its separate
all-digits branch exactly as in the source. -/
def format_free_rod (value : String) : ℚ :=
  let s := cleaned value
  if s = "" ∨ s = "0" ∨ s = "0.0" then 0
  else if pyIsDigit s then (pyFloat s).getD 0
  else (pyFloat s).getD 0

/-- `normalizeAdd` as worded in the specification: sentinel for the zero
forms; for pure digit strings a decimal point inserted four digits from the
end, or a left-padded four-digit fractional part; otherwise the direct float
parse with `0.0` fallback. -/
def normalizeAdd_spec (value : String) : ℚ :=
  let s := cleaned value
  if s = "" ∨ s = "0" ∨ s = "0.0" then 1 / 10000
  else if pyIsDigit s then
    if 4 < s.data.length then
      (digitsVal (s.data.take (s.data.length - 4)) : ℚ) +
        (digitsVal (s.data.drop (s.data.length - 4)) : ℚ) / 10 ^ 4
    else (digitsVal s.data : ℚ) / 10 ^ 4
  else (pyFloat s).getD 0

/-- The simpler function that claim C10 asserts `format_free_rod` equals:
strip, send the three zero forms to `0.0`, otherwise parse directly as a
float with `0.0` fallback (no separate all-digits branch). -/
def normalizeFreeRod_spec (value : String) : ℚ :=
  let s := cleaned value
  if s = "" ∨ s = "0" ∨ s = "0.0" then 0
  else (pyFloat s).getD 0

/-- A cell of the merged dataset: a (rational-modelled) float, a passed
through string, or the `NaN` "no data" marker. -/
inductive Cell where
  | num : ℚ → Cell
  | str : String → Cell
  | na : Cell
deriving DecidableEq

/-- The inline `On Hand` conversion lambda of `sku.py` line 91: parse as a
float when the stripped value is purely digits, otherwise pass the original
value through unchanged. -/
def format_on_hand (x : String) : Cell :=
  let s := cleaned x
  if pyIsDigit s then Cell.num ((pyFloat s).getD 0) else Cell.str x

/-- A raw pandas frame as read from an input sheet: named columns over rows
of string-modelled cells. -/
structure StrFrame where
  cols : List String
  rows : List (List String)
deriving DecidableEq

/-- A frame of the merged dataset. -/
structure DataFrame where
  cols : List String
  rows : List (List Cell)
deriving DecidableEq

/-- pandas `DataFrame.empty`: true when either axis has length zero. -/
def dfEmpty (df : DataFrame) : Bool := df.rows.isEmpty || df.cols.isEmpty

/-- Index of a column name in a column list (the length when absent). -/
def colIdx : List String → String → Nat
  | [], _ => 0
  | x :: xs, c => if x = c then 0 else colIdx xs c + 1

/-- Cell of a merged-frame row under a column name (`na` when absent). -/
def cellAt (df : DataFrame) (row : List Cell) (c : String) : Cell :=
  row.getD (colIdx df.cols c) Cell.na

/-- Cell of a raw-frame row under a column name (`""` when absent). -/
def sCellAt (df : StrFrame) (row : List String) (c : String) : String :=
  row.getD (colIdx df.cols c) ""

/-- The three reference headers forming the join key (`sku.py` line 11). -/
def REF_HEADERS : List String := ["Descr", "OPC", "SKU"]

/-- The three data headers (`sku.py` line 12). -/
def DATA_HEADERS : List String := ["ADD", "On Hand", "Free ROD"]

/-- The join key of a row: its three reference cells. -/
def rowKey (df : DataFrame) (row : List Cell) : List Cell :=
  REF_HEADERS.map (cellAt df row)

/-- The suffixed column name produced by the rename lambda `f"{x}_{i}"`. -/
def colName (base : String) (i : Nat) : String := base ++ "_" ++ natToStr i

/-- The three data-column names tagged with file index `i`. -/
def sufCols (i : Nat) : List String := DATA_HEADERS.map (fun h => colName h i)

/-- One input file, seen through its two candidate pandas reads: `df0` is
`pd.read_excel(path, header=0)` and `df1` is the `header=1` read;
`timestamp` is the file creation time already rendered as `DD/MM/YYYY`. -/
structure InputFile where
  path : String
  df0 : StrFrame
  df1 : StrFrame
  timestamp : String
deriving DecidableEq

/-- The `ValueError` message raised when both candidate header rows lack a
reference header (Python renders the header list inline; its quote marks are
elided here). -/
def headerErrMsg (path : String) : String :=
  "Reference headers [Descr, OPC, SKU] not found in " ++ path ++
    " (checked first and second rows)."

/-- Header resolution of `process_input_file` (`sku.py` lines 78–82): first
row as header, else second row, else the missing-header `ValueError`. -/
def resolveHeader (f : InputFile) : Except String StrFrame :=
  if REF_HEADERS.all (fun r => f.df0.cols.contains r) then Except.ok f.df0
  else if REF_HEADERS.all (fun r => f.df1.cols.contains r) then Except.ok f.df1
  else Except.error (headerErrMsg f.path)

/-- The successfully resolved frame (a dummy empty frame on error). -/
def chosenDf (f : InputFile) : StrFrame :=
  match resolveHeader f with
  | Except.ok df => df
  | Except.error _ => ⟨[], []⟩

/-- The frame `pd.concat([df_ref, df_data], axis=1)` built by
`process_input_file` (`sku.py` lines 84–96): the three reference columns
verbatim, then the three formatted data columns renamed with the file-index
suffix, in `DATA_HEADERS` order. -/
def buildCombined (df : StrFrame) (i : Nat) : DataFrame :=
  { cols := REF_HEADERS ++ sufCols i,
    rows := df.rows.map (fun row =>
      REF_HEADERS.map (fun h => Cell.str (sCellAt df row h)) ++
        [Cell.num (format_add (sCellAt df row "ADD")),
         format_on_hand (sCellAt df row "On Hand"),
         Cell.num (format_free_rod (sCellAt df row "Free ROD"))]) }

/-- `process_input_file` from `sku.py` lines 69–99.  The `KeyError` raised
by `df[DATA_HEADERS]` when a data column is missing is modelled as an error
string too: the caller catches every exception alike. -/
def process_input_file (f : InputFile) (i : Nat) :
    Except String (DataFrame × String) :=
  match resolveHeader f with
  | Except.error e => Except.error e
  | Except.ok df =>
    if DATA_HEADERS.all (fun h => df.cols.contains h) then
      Except.ok (buildCombined df i, f.timestamp)
    else Except.error ("KeyError: data headers missing in " ++ f.path)

/-- Whether ingestion of this file succeeds; independent of the index. -/
def ingestOk (f : InputFile) : Bool :=
  match resolveHeader f with
  | Except.ok df => DATA_HEADERS.all (fun h => df.cols.contains h)
  | Except.error _ => false

/-- pandas `pd.merge(existing, new, on=REF_HEADERS, how='outer')`, modelled
for the frames this program builds: both sides carry the three key columns,
and the non-key column names of the two sides are disjoint (the new frame's
data columns carry a fresh file-index suffix), so no `_x`/`_y` suffixing
arises.  Rows: each left row in order, matched against right rows by key
(`NaN` keys are idealized as ordinary values; the program's keys are
strings), then the unmatched right rows. -/
def mergeExtraCols (r : DataFrame) : List String :=
  r.cols.filter (fun c => !(REF_HEADERS.contains c))

/-- The projection of a right row to the appended (non-key) columns. -/
def mergeRNonKey (r : DataFrame) (rrow : List Cell) : List Cell :=
  (mergeExtraCols r).map (cellAt r rrow)

/-- The merged rows produced by one left row: matched right rows appended,
or a single `NaN`-padded row when no right key matches. -/
def mergeLeftBlock (l r : DataFrame) (lrow : List Cell) : List (List Cell) :=
  let ms := r.rows.filter (fun rrow => rowKey r rrow == rowKey l lrow)
  if ms.isEmpty then [lrow ++ (mergeExtraCols r).map (fun _ => Cell.na)]
  else ms.map (fun rrow => lrow ++ mergeRNonKey r rrow)

/-- The rows for right keys matched by no left row: key cells placed into
the left key columns, `NaN` into the other left columns. -/
def mergeRightRows (l r : DataFrame) : List (List Cell) :=
  (r.rows.filter (fun rrow =>
      !(l.rows.any (fun lrow => rowKey l lrow == rowKey r rrow)))).map
    (fun rrow =>
      l.cols.map (fun c => if REF_HEADERS.contains c then cellAt r rrow c
        else Cell.na) ++ mergeRNonKey r rrow)

def pdMergeOuter (l r : DataFrame) : DataFrame :=
  ⟨l.cols ++ mergeExtraCols r,
    l.rows.flatMap (mergeLeftBlock l r) ++ mergeRightRows l r⟩

/-- `merge_dataframes` from `sku.py` lines 101–105. -/
def merge_dataframes (existing : Option DataFrame) (new : DataFrame) :
    DataFrame :=
  match existing with
  | none => new
  | some df => if dfEmpty df then new else pdMergeOuter df new

/-- Whether a character list starts with the given pattern. -/
def startsWithL : List Char → List Char → Bool
  | [], _ => true
  | _ :: _, [] => false
  | p :: ps, c :: cs => p = c && startsWithL ps cs

/-- Whether a character list contains the pattern as a contiguous run. -/
def containsL (pat : List Char) : List Char → Bool
  | [] => startsWithL pat []
  | c :: cs => startsWithL pat (c :: cs) || containsL pat cs

/-- Literal substring test: the semantics of `Series.str.contains` with an
alternation-free pattern and `case=True`. -/
def strContainsSub (s pat : String) : Bool := containsL pat.data s.data

/-- `Series.str.contains('FSV', case=True, na=False)` on one cell; a
non-string cell yields `NaN`, which `na=False` maps to `False`. -/
def descrMatchFSV (c : Cell) : Bool :=
  match c with
  | Cell.str s => strContainsSub s "FSV"
  | _ => false

/-- `Series.str.contains('SF|PUCK', case=True, na=False)` on one cell: the
regex is an alternation of the two literals. -/
def descrMatchSFPuck (c : Cell) : Bool :=
  match c with
  | Cell.str s => strContainsSub s "SF" || strContainsSub s "PUCK"
  | _ => false

/-- `filter_category_data` from `sku.py` lines 107–113. -/
def filter_category_data (df : DataFrame) (category : String) : DataFrame :=
  if category = "FSV" then
    ⟨df.cols, df.rows.filter (fun row => descrMatchFSV (cellAt df row "Descr"))⟩
  else if category = "SF_PUCK" then
    ⟨df.cols, df.rows.filter (fun row => descrMatchSFPuck (cellAt df row "Descr"))⟩
  else ⟨df.cols, []⟩

/-- Python `col.rsplit("_", 1)` under the guard `"_" in col`: split at the
last underscore. -/
def rsplit1 (s : String) : Option (String × String) :=
  if s.data.contains '_' then
    let k := s.data.reverse.takeWhile (fun c => c ≠ '_')
    some (String.mk (s.data.take (s.data.length - k.length - 1)),
      String.mk k.reverse)
  else none

/-- Python `dict.get(k, "")` on the timestamp registry. -/
def regGet (reg : List (String × String)) (k : String) : String :=
  match reg.find? (fun p => p.1 = k) with
  | some p => p.2
  | none => ""

/-- An output sheet: exactly two header rows, then the data rows verbatim. -/
structure Sheet where
  header1 : List String
  header2 : List String
  rows : List (List Cell)
deriving DecidableEq

/-- `write_df_custom` from `sku.py` lines 115–136. -/
def write_df_custom (df : DataFrame) (file_timestamps : List (String × String)) :
    Sheet :=
  let h := df.cols.map (fun col =>
    if col ∈ REF_HEADERS then ("", col)
    else
      match rsplit1 col with
      | some bi => (regGet file_timestamps bi.2, bi.1)
      | none => ("", col))
  ⟨h.map Prod.fst, h.map Prod.snd, df.rows⟩

/-- The timestamp registry: insertion-ordered `str(index) ↦ date` pairs. -/
abbrev Registry := List (String × String)

/-- Python dict assignment `reg[k] = v`: update in place when the key
exists, append otherwise. -/
def regSet (reg : Registry) (k v : String) : Registry :=
  if reg.any (fun p => p.1 = k) then
    reg.map (fun p => if p.1 = k then (k, v) else p)
  else reg ++ [(k, v)]

/-- `max(int(k) for k in file_timestamps.keys())` as a fold from 0; every
registry key is a canonical decimal string, hence nonnegative. -/
def maxKeyVal (reg : Registry) : Nat :=
  reg.foldl (fun m p => max m (pyInt p.1)) 0

/-- The session's start index (`sku.py` lines 220–223), the specification's
`nextFileIndex`. -/
def nextFileIndex (reg : Registry) : Nat :=
  if reg.isEmpty then 1 else maxKeyVal reg + 1

/-- Python `enumerate(files, start)`. -/
def enumerateFrom (start : Nat) : List InputFile → List (Nat × InputFile)
  | [] => []
  | f :: fs => (start, f) :: enumerateFrom (start + 1) fs

/-- One iteration of the ingestion loop (`sku.py` lines 225–233): on success
register the timestamp and merge; on any exception skip the file. -/
def sessionStep (st : Option DataFrame × Registry) (p : Nat × InputFile) :
    Option DataFrame × Registry :=
  match process_input_file p.2 p.1 with
  | Except.ok r => (some (merge_dataframes st.1 r.1), regSet st.2 (natToStr p.1) r.2)
  | Except.error _ => st

/-- The ingestion loop from a given start index. -/
def runSession (g : Option DataFrame) (reg : Registry) (start : Nat)
    (files : List InputFile) : Option DataFrame × Registry :=
  (enumerateFrom start files).foldl sessionStep (g, reg)

/-- The ingestion phase of `ExcelProcessorUI.process_data`: the start index
is computed once, from the loaded registry, before any file is processed. -/
def process_data_loop (g : Option DataFrame) (reg : Registry)
    (files : List InputFile) : Option DataFrame × Registry :=
  runSession g reg (nextFileIndex reg) files

/-- Column list of an optional frame. -/
def colsOf (g : Option DataFrame) : List String :=
  match g with
  | none => []
  | some df => df.cols

/-- Abstract dataset state: current column list plus a nonempty flag. -/
def dsState (g : Option DataFrame) : List String × Bool :=
  match g with
  | none => ([], false)
  | some df => (df.cols, !dfEmpty df)

/-- Column-level effect of successfully ingesting a nonempty snapshot. -/
def stepCols (st : List String × Bool) (i : Nat) : List String × Bool :=
  if st.2 then (st.1 ++ sufCols i, true) else (REF_HEADERS ++ sufCols i, true)

/-- Column-level effect of a session of `n` successful nonempty snapshots. -/
def sessionColsState : (List String × Bool) → Nat → Nat → List String × Bool
  | st, _, 0 => st
  | st, start, n + 1 => sessionColsState (stepCols st start) (start + 1) n

/-! ### Concrete fixtures used by witnesses and counterexamples -/

/-- A well-formed raw frame with all six headers and one data row. -/
def sampleFrame1 : StrFrame :=
  { cols := ["Descr", "OPC", "SKU", "ADD", "On Hand", "Free ROD"],
    rows := [["FSV-100", "P1", "S1", "7", "5", "3"]] }

/-- A raw frame with all six headers but no data rows. -/
def sampleFrameEmpty : StrFrame :=
  { cols := ["Descr", "OPC", "SKU", "ADD", "On Hand", "Free ROD"], rows := [] }

/-- A raw frame lacking the reference headers. -/
def sampleFrameBad : StrFrame := { cols := ["A", "B"], rows := [] }

/-- An input file that ingests successfully, with one data row. -/
def fileGood : InputFile :=
  { path := "good.xlsx", df0 := sampleFrame1, df1 := sampleFrameBad,
    timestamp := "01/02/2025" }

/-- A second successfully ingesting one-row input file. -/
def fileGood2 : InputFile :=
  { path := "good2.xlsx", df0 := sampleFrame1, df1 := sampleFrameBad,
    timestamp := "02/02/2025" }

/-- An input file whose two candidate header rows both lack the reference
headers: its ingestion fails and the file is skipped. -/
def fileBad : InputFile :=
  { path := "bad.xlsx", df0 := sampleFrameBad, df1 := sampleFrameBad,
    timestamp := "03/02/2025" }

/-- An input file that ingests successfully but contains no data rows. -/
def fileEmptyRows : InputFile :=
  { path := "empty.xlsx", df0 := sampleFrameEmpty, df1 := sampleFrameBad,
    timestamp := "04/02/2025" }

/-- A one-row merged dataset carrying the index-1 data columns. -/
def dfL : DataFrame :=
  { cols := ["Descr", "OPC", "SKU", "ADD_1"],
    rows := [[Cell.str "A", Cell.str "B", Cell.str "C", Cell.str "x"]] }

/-- A one-row snapshot with a different key, carrying index-2 columns. -/
def dfR : DataFrame :=
  { cols := ["Descr", "OPC", "SKU", "ADD_2"],
    rows := [[Cell.str "D", Cell.str "E", Cell.str "F", Cell.str "y"]] }

/-- A merged dataset header used by the writer witness. -/
def dfW : DataFrame :=
  { cols := ["Descr", "OPC", "SKU", colName "ADD" 1], rows := [] }

/-- A registry holding a timestamp for file index 1. -/
def regW : Registry := [(natToStr 1, "05/03/2025")]

/-! ### Elementary string, digit and parsing lemmas -/

theorem strData_append (a b : String) : (a ++ b).data = a.data ++ b.data := by
  cases a; cases b; rfl

theorem strMk_data (s : String) : String.mk s.data = s := rfl

theorem takeWhile_append_stop {p : Char → Bool} {l₁ l₂ : List Char} {b : Char}
    (h₁ : ∀ c ∈ l₁, p c = true) (hb : p b = false) :
    (l₁ ++ b :: l₂).takeWhile p = l₁ := by
  induction l₁ with
  | nil => simp [List.takeWhile_cons, hb]
  | cons c cs ih =>
    have hc : p c = true := h₁ c (List.mem_cons_self c cs)
    simp only [List.cons_append, List.takeWhile_cons, hc, if_true]
    rw [ih (fun x hx => h₁ x (List.mem_cons_of_mem c hx))]

theorem dropWhile_append_stop {p : Char → Bool} {l₁ l₂ : List Char} {b : Char}
    (h₁ : ∀ c ∈ l₁, p c = true) (hb : p b = false) :
    (l₁ ++ b :: l₂).dropWhile p = b :: l₂ := by
  induction l₁ with
  | nil => simp [List.dropWhile_cons, hb]
  | cons c cs ih =>
    have hc : p c = true := h₁ c (List.mem_cons_self c cs)
    simp only [List.cons_append, List.dropWhile_cons, hc, if_true]
    exact ih (fun x hx => h₁ x (List.mem_cons_of_mem c hx))

theorem digitsVal_append_singleton (l : List Char) (c : Char) :
    digitsVal (l ++ [c]) = 10 * digitsVal l + digitVal c := by
  simp [digitsVal, List.foldl_append]

theorem digitsVal_cons_zero (l : List Char) : digitsVal ('0' :: l) = digitsVal l := rfl

theorem digitsVal_replicate_zero (k : Nat) (l : List Char) :
    digitsVal (List.replicate k '0' ++ l) = digitsVal l := by
  induction k with
  | zero => rfl
  | succ n ih => rw [List.replicate_succ, List.cons_append, digitsVal_cons_zero]; exact ih

theorem parseDecimalCore_digits {l : List Char} (hne : l ≠ [])
    (hd : ∀ c ∈ l, c.isDigit = true) :
    parseDecimalCore l = some (digitsVal l : ℚ) := by
  have ht : l.takeWhile Char.isDigit = l := List.takeWhile_eq_self_iff.mpr hd
  have hdw : l.dropWhile Char.isDigit = [] := List.dropWhile_eq_nil_iff.mpr hd
  simp only [parseDecimalCore, ht, hdw]
  simp [List.isEmpty_iff, hne]

theorem pyFloatL_digits {l : List Char} (hne : l ≠ [])
    (hd : ∀ c ∈ l, c.isDigit = true) :
    pyFloatL l = some (digitsVal l : ℚ) := by
  match l, hne with
  | c :: cs, _ =>
    have hc : c.isDigit = true := hd c (List.mem_cons_self c cs)
    have h₁ : c ≠ '+' := by rintro rfl; exact absurd hc (by decide)
    have h₂ : c ≠ '-' := by rintro rfl; exact absurd hc (by decide)
    simp only [pyFloatL, if_neg h₁, if_neg h₂]
    exact parseDecimalCore_digits (by simp) hd

theorem pyFloatL_point {l₁ l₂ : List Char} (hd₁ : ∀ c ∈ l₁, c.isDigit = true)
    (hd₂ : ∀ c ∈ l₂, c.isDigit = true) (hne : l₁ ≠ [] ∨ l₂ ≠ []) :
    pyFloatL (l₁ ++ '.' :: l₂) =
      some ((digitsVal l₁ : ℚ) + (digitsVal l₂ : ℚ) / 10 ^ l₂.length) := by
  have hdot : Char.isDigit '.' = false := by decide
  have ht : ((l₁ ++ '.' :: l₂).takeWhile Char.isDigit) = l₁ :=
    takeWhile_append_stop hd₁ hdot
  have hdw : ((l₁ ++ '.' :: l₂).dropWhile Char.isDigit) = '.' :: l₂ :=
    dropWhile_append_stop hd₁ hdot
  have hcore : parseDecimalCore (l₁ ++ '.' :: l₂) =
      some ((digitsVal l₁ : ℚ) + (digitsVal l₂ : ℚ) / 10 ^ l₂.length) := by
    simp only [parseDecimalCore, ht, hdw]
    have hall : l₂.all Char.isDigit = true := List.all_eq_true.mpr hd₂
    have hne' : (l₁.isEmpty && l₂.isEmpty) = false := by
      rcases hne with h | h
      · simp [List.isEmpty_iff, h]
      · simp [List.isEmpty_iff, h]
    simp [hall, hne']
  cases l₁ with
  | nil =>
    simp only [List.nil_append]
    have : pyFloatL ('.' :: l₂) = parseDecimalCore ('.' :: l₂) := by
      simp [pyFloatL]
    rw [this]
    simpa using hcore
  | cons c cs =>
    have hc : c.isDigit = true := hd₁ c (List.mem_cons_self c cs)
    have h₁ : c ≠ '+' := by rintro rfl; exact absurd hc (by decide)
    have h₂ : c ≠ '-' := by rintro rfl; exact absurd hc (by decide)
    simp only [List.cons_append, pyFloatL, if_neg h₁, if_neg h₂]
    simpa using hcore

theorem pyIsDigit_elim {s : String} (h : pyIsDigit s = true) :
    s.data ≠ [] ∧ ∀ c ∈ s.data, c.isDigit = true := by
  unfold pyIsDigit at h
  rcases Bool.and_eq_true_iff.mp h with ⟨h₁, h₂⟩
  refine ⟨?_, List.all_eq_true.mp h₂⟩
  intro hnil
  simp [hnil] at h₁

theorem digits_of_take {l : List Char} (hd : ∀ c ∈ l, c.isDigit = true) (n : Nat) :
    ∀ c ∈ l.take n, c.isDigit = true := fun c hc => hd c (List.take_subset n l hc)

theorem digits_of_drop {l : List Char} (hd : ∀ c ∈ l, c.isDigit = true) (n : Nat) :
    ∀ c ∈ l.drop n, c.isDigit = true := fun c hc => hd c (List.drop_subset n l hc)

theorem formatAdd_eq_spec (v : String) : format_add v = normalizeAdd_spec v := by
  simp only [format_add, normalizeAdd_spec]
  by_cases h0 : cleaned v = "" ∨ cleaned v = "0" ∨ cleaned v = "0.0"
  · simp [h0]
  · simp only [if_neg h0]
    cases hdig : pyIsDigit (cleaned v) with
    | false => simp
    | true =>
      obtain ⟨hne, hd⟩ := pyIsDigit_elim hdig
      simp only [if_true]
      set s := cleaned v with hs
      by_cases h4 : 4 < s.data.length
      · simp only [if_pos h4]
        have hdata : (String.mk (s.data.take (s.data.length - 4)) ++ "." ++
            String.mk (s.data.drop (s.data.length - 4))).data =
            s.data.take (s.data.length - 4) ++ '.' :: s.data.drop (s.data.length - 4) := by
          rw [strData_append, strData_append]
          simp
        have hlen : (s.data.drop (s.data.length - 4)).length = 4 := by
          rw [List.length_drop]; omega
        have hdne : s.data.drop (s.data.length - 4) ≠ [] := by
          intro h
          rw [h] at hlen
          simp at hlen
        rw [pyFloat, hdata, pyFloatL_point (digits_of_take hd _) (digits_of_drop hd _)
          (Or.inr hdne), hlen]
        rfl
      · simp only [if_neg h4]
        have hdata : (("0." : String) ++ pyZfill s 4).data =
            ['0'] ++ '.' :: (List.replicate (4 - s.data.length) '0' ++ s.data) := by
          rw [strData_append]
          rfl
        have hd₂ : ∀ c ∈ List.replicate (4 - s.data.length) '0' ++ s.data,
            c.isDigit = true := by
          intro c hc
          rcases List.mem_append.mp hc with h | h
          · rw [List.eq_of_mem_replicate h]; decide
          · exact hd c h
        have hlen : (List.replicate (4 - s.data.length) '0' ++ s.data).length = 4 := by
          rw [List.length_append, List.length_replicate]
          omega
        rw [pyFloat, hdata, pyFloatL_point (by decide) hd₂ (Or.inl (by simp)), hlen,
          digitsVal_replicate_zero]
        rw [show digitsVal ['0'] = 0 from rfl]
        simp

/-! ### Claims C1, C10, C8, C7 -/

/-- C1: `format_add` (the spec's `normalizeAdd`) returns the sentinel
`0.0001` for the empty and literal-zero forms of the comma-stripped,
trimmed string; for a pure digit string it inserts an implied 4-digit
fraction (decimal point 4 digits from the end when longer than 4 digits,
left-padded 4-digit fractional part otherwise); any other string is parsed
directly as a float, with `0.0` on parse failure — and it takes the spec's
listed values on the seven sample inputs. -/
theorem c1_format_add_matches_spec :
    (∀ v, format_add v = normalizeAdd_spec v) ∧
    format_add "0" = 0.0001 ∧ format_add "" = 0.0001 ∧
    format_add "7" = 0.0007 ∧ format_add "1234" = 0.1234 ∧
    format_add "12345" = 1.2345 ∧ format_add "1000000" = 100.0 ∧
    format_add "N/A#?" = 0.0 := by
  refine ⟨formatAdd_eq_spec, ?_, ?_, ?_, ?_, ?_, ?_, ?_⟩
  · rw [show format_add "0" = 1 / 10000 from rfl]; norm_num
  · rw [show format_add "" = 1 / 10000 from rfl]; norm_num
  · rw [show format_add "7" = (0 : ℚ) + 7 / 10 ^ 4 from rfl]; norm_num
  · rw [show format_add "1234" = (0 : ℚ) + 1234 / 10 ^ 4 from rfl]; norm_num
  · rw [show format_add "12345" = (1 : ℚ) + 2345 / 10 ^ 4 from rfl]; norm_num
  · rw [show format_add "1000000" = (100 : ℚ) + 0 / 10 ^ 4 from rfl]; norm_num
  · rw [show format_add "N/A#?" = (0 : ℚ) from rfl]; norm_num

/-- C10: `format_free_rod` is extensionally equal to the simpler function
that strips, maps the three zero forms to `0.0` and otherwise parses the
string directly as a float with `0.0` fallback: the separate all-digits
branch of the source returns the float of the same string as the
fall-through branch, hence is redundant. -/
theorem c10_format_free_rod_redundant_branch :
    ∀ v, format_free_rod v = normalizeFreeRod_spec v := by
  intro v
  simp only [format_free_rod, normalizeFreeRod_spec]
  by_cases h0 : cleaned v = "" ∨ cleaned v = "0" ∨ cleaned v = "0.0"
  · simp [h0]
  · cases hdig : pyIsDigit (cleaned v) <;> simp [h0, hdig]

/-- C8: the On Hand conversion strips separators and whitespace, parses a
purely-digit result as a float, and otherwise returns the original value
itself unchanged (not the stripped string); `"2,000"` parses to `2000.0`
while `"N/A"` passes through unchanged. -/
theorem c8_format_on_hand_matches_spec :
    (∀ x, format_on_hand x =
      if pyIsDigit (cleaned x) then Cell.num ((digitsVal (cleaned x).data : ℚ))
      else Cell.str x) ∧
    format_on_hand "2,000" = Cell.num 2000 ∧
    format_on_hand "N/A" = Cell.str "N/A" := by
  refine ⟨?_, ?_, rfl⟩
  · intro x
    simp only [format_on_hand]
    cases hdig : pyIsDigit (cleaned x) with
    | false => simp
    | true =>
      obtain ⟨hne, hd⟩ := pyIsDigit_elim hdig
      have hp : pyFloat (cleaned x) = some (digitsVal (cleaned x).data : ℚ) := by
        rw [pyFloat]; exact pyFloatL_digits hne hd
      simp [hp]
  · rw [show format_on_hand "2,000" = Cell.num ((2000 : ℕ) : ℚ) from rfl]
    norm_num

/-- C7: `filter_category_data` keeps exactly the rows whose `Descr` cell
contains the literal substring `FSV` (category `FSV`), respectively
contains `SF` or `PUCK` anywhere (category `SF_PUCK`), preserving the
column shape; any other category name yields an empty table with the same
columns; matching is case-sensitive, `"FSV-100"` matches only `FSV` and
`"PUCK-2"` only `SF_PUCK`. -/
theorem c7_filter_category_matches_spec :
    (∀ df row, row ∈ (filter_category_data df "FSV").rows ↔
      row ∈ df.rows ∧ descrMatchFSV (cellAt df row "Descr") = true) ∧
    (∀ df row, row ∈ (filter_category_data df "SF_PUCK").rows ↔
      row ∈ df.rows ∧ descrMatchSFPuck (cellAt df row "Descr") = true) ∧
    (∀ df, (filter_category_data df "FSV").cols = df.cols) ∧
    (∀ df, (filter_category_data df "SF_PUCK").cols = df.cols) ∧
    (∀ df cat, cat ≠ "FSV" → cat ≠ "SF_PUCK" →
      (filter_category_data df cat).cols = df.cols ∧
      (filter_category_data df cat).rows = []) ∧
    (descrMatchFSV (Cell.str "FSV-100") = true ∧
      descrMatchSFPuck (Cell.str "FSV-100") = false) ∧
    (descrMatchSFPuck (Cell.str "PUCK-2") = true ∧
      descrMatchFSV (Cell.str "PUCK-2") = false) ∧
    descrMatchFSV (Cell.str "fsv") = false := by
  refine ⟨?_, ?_, fun df => rfl, fun df => rfl, ?_, by decide, by decide, by decide⟩
  · intro df row
    simp [filter_category_data, List.mem_filter]
  · intro df row
    simp [filter_category_data, List.mem_filter]
  · intro df cat h1 h2
    simp [filter_category_data, h1, h2]

/-! ### Decimal printing of file indices -/

theorem digitChar_isDigit {d : Nat} (h : d < 10) : (digitChar d).isDigit = true := by
  interval_cases d <;> decide

theorem digitChar_val {d : Nat} (h : d < 10) : digitVal (digitChar d) = d := by
  interval_cases d <;> decide

theorem natDigitsAux_all_digit :
    ∀ fuel n, ∀ c ∈ natDigitsAux fuel n, c.isDigit = true := by
  intro fuel
  induction fuel with
  | zero => intro n c hc; simp [natDigitsAux] at hc
  | succ m ih =>
    intro n c hc
    simp only [natDigitsAux] at hc
    by_cases h : n < 10
    · rw [if_pos h] at hc
      simp only [List.mem_singleton] at hc
      subst hc
      exact digitChar_isDigit h
    · rw [if_neg h] at hc
      rcases List.mem_append.mp hc with h1 | h1
      · exact ih _ c h1
      · simp only [List.mem_singleton] at h1
        subst h1
        exact digitChar_isDigit (Nat.mod_lt _ (by omega))

theorem natDigitsAux_ne_nil {fuel n : Nat} (h : 0 < fuel) :
    natDigitsAux fuel n ≠ [] := by
  match fuel, h with
  | m + 1, _ =>
    simp only [natDigitsAux]
    by_cases h10 : n < 10
    · simp [h10]
    · simp [h10]

theorem digitsVal_natDigitsAux :
    ∀ fuel n, n < fuel → digitsVal (natDigitsAux fuel n) = n := by
  intro fuel
  induction fuel with
  | zero => omega
  | succ m ih =>
    intro n hn
    simp only [natDigitsAux]
    by_cases h : n < 10
    · rw [if_pos h]
      have hv := digitChar_val h
      show 10 * 0 + digitVal (digitChar n) = n
      omega
    · have hdiv : n / 10 < n := Nat.div_lt_self (by omega) (by omega)
      rw [if_neg h, digitsVal_append_singleton, ih _ (by omega),
        digitChar_val (Nat.mod_lt _ (by omega))]
      omega

theorem natDigits_all_digit (n : Nat) : ∀ c ∈ natDigits n, c.isDigit = true :=
  natDigitsAux_all_digit _ n

theorem natDigits_ne_nil (n : Nat) : natDigits n ≠ [] := natDigitsAux_ne_nil (by omega)

theorem digitsVal_natDigits (n : Nat) : digitsVal (natDigits n) = n :=
  digitsVal_natDigitsAux _ n (by omega)

theorem pyIsDigit_natToStr (n : Nat) : pyIsDigit (natToStr n) = true := by
  show (!(natDigits n).isEmpty && (natDigits n).all Char.isDigit) = true
  rw [List.all_eq_true.mpr (natDigits_all_digit n)]
  simp [List.isEmpty_iff, natDigits_ne_nil]

theorem pyInt_natToStr (n : Nat) : pyInt (natToStr n) = n := by
  unfold pyInt
  simp only [pyIsDigit_natToStr, if_true]
  exact digitsVal_natDigits n

theorem natToStr_inj {a b : Nat} (h : natToStr a = natToStr b) : a = b := by
  have h' := congrArg pyInt h
  rwa [pyInt_natToStr, pyInt_natToStr] at h'

/-! ### Claims C4 and C5 -/

theorem range'_cons (s n : Nat) : List.range' s (n + 1) = s :: List.range' (s + 1) n := by
  simp [List.range'_succ]

theorem enumerateFrom_map_fst (start : Nat) (files : List InputFile) :
    (enumerateFrom start files).map Prod.fst = List.range' start files.length := by
  induction files generalizing start with
  | nil => rfl
  | cons f fs ih =>
    simp only [enumerateFrom, List.map_cons, List.length_cons, range'_cons]
    rw [ih]

theorem enumerateFrom_map_snd (start : Nat) (files : List InputFile) :
    (enumerateFrom start files).map Prod.snd = files := by
  induction files generalizing start with
  | nil => rfl
  | cons f fs ih => simp only [enumerateFrom, List.map_cons, ih]

theorem foldl_max_init_le (f : String × String → Nat) :
    ∀ (reg : List (String × String)) (a : Nat),
      a ≤ reg.foldl (fun m q => max m (f q)) a := by
  intro reg
  induction reg with
  | nil => intro a; exact Nat.le_refl a
  | cons q qs ih =>
    intro a
    exact le_trans (Nat.le_max_left a (f q)) (ih (max a (f q)))

theorem mem_le_foldl_max (f : String × String → Nat) :
    ∀ (reg : List (String × String)) (a : Nat), ∀ p ∈ reg,
      f p ≤ reg.foldl (fun m q => max m (f q)) a := by
  intro reg
  induction reg with
  | nil => intro a p hp; simp at hp
  | cons q qs ih =>
    intro a p hp
    rcases List.mem_cons.mp hp with rfl | hp'
    · exact le_trans (Nat.le_max_right a (f p)) (foldl_max_init_le f qs _)
    · exact ih _ p hp'

theorem maxKeyVal_ge {reg : Registry} {p : String × String} (hp : p ∈ reg) :
    pyInt p.1 ≤ maxKeyVal reg :=
  mem_le_foldl_max (fun q => pyInt q.1) reg 0 p hp

/-- C4: the session start index is `1` on an empty registry and one more
than the maximum registered index otherwise (hence strictly above every
registered index); it is computed once per session, before any file is
processed, and the batch's files are enumerated with strictly consecutive
indices from that value, in caller order. -/
theorem c4_nextFileIndex_spec :
    nextFileIndex [] = 1 ∧
    (∀ reg : Registry, reg ≠ [] → nextFileIndex reg = maxKeyVal reg + 1) ∧
    (∀ (reg : Registry), ∀ p ∈ reg, pyInt p.1 < nextFileIndex reg) ∧
    (∀ g reg files,
      process_data_loop g reg files = runSession g reg (nextFileIndex reg) files) ∧
    (∀ start files,
      (enumerateFrom start files).map Prod.fst = List.range' start files.length) ∧
    (∀ start files, (enumerateFrom start files).map Prod.snd = files) := by
  refine ⟨rfl, ?_, ?_, fun g reg files => rfl, enumerateFrom_map_fst,
    enumerateFrom_map_snd⟩
  · intro reg h
    simp [nextFileIndex, List.isEmpty_iff, h]
  · intro reg p hp
    have h1 : reg ≠ [] := by rintro rfl; simp at hp
    have h2 : pyInt p.1 ≤ maxKeyVal reg := maxKeyVal_ge hp
    simp only [nextFileIndex, List.isEmpty_iff]
    rw [if_neg h1]
    omega

/-- C5: ingestion reads the file with its first row as header; if the three
reference headers are not all present it retries with the second row; if
they are still absent `process_input_file` fails with the missing-header
error naming the file and the two attempted header rows; and such a
per-file failure does not abort the batch — the session simply continues
with the remaining files. -/
theorem c5_header_fallback_and_skip :
    (∀ f : InputFile, (∀ r ∈ REF_HEADERS, r ∈ f.df0.cols) →
      resolveHeader f = Except.ok f.df0) ∧
    (∀ f : InputFile, ¬ (∀ r ∈ REF_HEADERS, r ∈ f.df0.cols) →
      (∀ r ∈ REF_HEADERS, r ∈ f.df1.cols) →
      resolveHeader f = Except.ok f.df1) ∧
    (∀ (f : InputFile) (i : Nat),
      ¬ (∀ r ∈ REF_HEADERS, r ∈ f.df0.cols) →
      ¬ (∀ r ∈ REF_HEADERS, r ∈ f.df1.cols) →
      process_input_file f i = Except.error (headerErrMsg f.path)) ∧
    (∀ g reg start (f : InputFile) fs e,
      process_input_file f start = Except.error e →
      runSession g reg start (f :: fs) = runSession g reg (start + 1) fs) := by
  have hall : ∀ (cols hs : List String),
      (hs.all fun r => cols.contains r) = true ↔ ∀ r ∈ hs, r ∈ cols := by
    intro cols hs
    simp [List.all_eq_true]
  refine ⟨?_, ?_, ?_, ?_⟩
  · intro f h
    unfold resolveHeader
    rw [if_pos ((hall _ _).mpr h)]
  · intro f h0 h1
    unfold resolveHeader
    rw [if_neg (fun hb => h0 ((hall _ _).mp hb)), if_pos ((hall _ _).mpr h1)]
  · intro f i h0 h1
    have hr : resolveHeader f = Except.error (headerErrMsg f.path) := by
      unfold resolveHeader
      rw [if_neg (fun hb => h0 ((hall _ _).mp hb)),
        if_neg (fun hb => h1 ((hall _ _).mp hb))]
    unfold process_input_file
    rw [hr]
  · intro g reg start f fs e h
    simp [runSession, enumerateFrom, sessionStep, h]

/-! ### Claim C6: the layered-header writer -/

theorem colName_data (base : String) (i : Nat) :
    (colName base i).data = base.data ++ '_' :: natDigits i := by
  unfold colName
  rw [strData_append, strData_append]
  simp [natToStr]

theorem mem_colName_underscore (base : String) (i : Nat) :
    '_' ∈ (colName base i).data := by
  rw [colName_data]; simp

theorem colName_not_ref (base : String) (i : Nat) : colName base i ∉ REF_HEADERS := by
  intro h
  have h' := mem_colName_underscore base i
  simp only [REF_HEADERS, List.mem_cons, List.not_mem_nil, or_false] at h
  rcases h with h | h | h <;> rw [h] at h' <;> exact absurd h' (by decide)

theorem rsplit1_colName (base : String) (i : Nat) :
    rsplit1 (colName base i) = some (base, natToStr i) := by
  unfold rsplit1
  rw [colName_data]
  have hmem : (base.data ++ '_' :: natDigits i).contains '_' = true := by
    simp
  rw [if_pos hmem]
  have hrev : (base.data ++ '_' :: natDigits i).reverse =
      (natDigits i).reverse ++ '_' :: base.data.reverse := by
    rw [List.reverse_append, List.reverse_cons, List.append_assoc]
    simp
  have hdig : ∀ c ∈ (natDigits i).reverse, (decide (c ≠ '_') : Bool) = true := by
    intro c hc
    have hcd := natDigits_all_digit i c (List.mem_reverse.mp hc)
    refine decide_eq_true ?_
    rintro rfl
    exact absurd hcd (by decide)
  have htake : ((base.data ++ '_' :: natDigits i).reverse.takeWhile
      (fun c => decide (c ≠ '_'))) = (natDigits i).reverse := by
    rw [hrev]
    exact takeWhile_append_stop hdig (by decide)
  rw [htake]
  show some (String.mk ((base.data ++ '_' :: natDigits i).take
      ((base.data ++ '_' :: natDigits i).length - (natDigits i).reverse.length - 1)),
    String.mk (natDigits i).reverse.reverse) = some (base, natToStr i)
  rw [List.reverse_reverse, List.length_reverse]
  have hlen : (base.data ++ '_' :: natDigits i).length - (natDigits i).length - 1
      = base.data.length := by
    simp only [List.length_append, List.length_cons]
    omega
  rw [hlen, List.take_left base.data ('_' :: natDigits i)]
  rfl

/-- C6: the layered-header writer emits exactly two header rows followed by
the table's rows verbatim, in the table's column order; above each of the
three reference columns header row 1 is blank and row 2 the column name
verbatim; above a data column named `base_<idx>` header row 1 carries the
registry's timestamp for `<idx>` (blank when absent, via `regGet`'s empty
default) and row 2 the bare base name. -/
theorem c6_write_df_custom_layered_header :
    (∀ df reg, (write_df_custom df reg).rows = df.rows ∧
      (write_df_custom df reg).header1.length = df.cols.length ∧
      (write_df_custom df reg).header2.length = df.cols.length) ∧
    (∀ df reg (j : Nat) col, df.cols[j]? = some col → col ∈ REF_HEADERS →
      (write_df_custom df reg).header1[j]? = some "" ∧
      (write_df_custom df reg).header2[j]? = some col) ∧
    (∀ df reg (j : Nat) base i, df.cols[j]? = some (colName base i) →
      (write_df_custom df reg).header1[j]? = some (regGet reg (natToStr i)) ∧
      (write_df_custom df reg).header2[j]? = some base) := by
  refine ⟨?_, ?_, ?_⟩
  · intro df reg
    exact ⟨rfl, by simp [write_df_custom], by simp [write_df_custom]⟩
  · intro df reg j col hj hcol
    simp only [write_df_custom, List.map_map, List.getElem?_map, hj, Option.map_some]
    simp [hcol]
  · intro df reg j base i hj
    simp only [write_df_custom, List.map_map, List.getElem?_map, hj, Option.map_some]
    simp [colName_not_ref base i, rsplit1_colName]

/-! ### Claim C2: the outer join preserves the existing dataset -/

theorem cellAt_def (df : DataFrame) (row : List Cell) (c : String) :
    cellAt df row c = row.getD (colIdx df.cols c) Cell.na := rfl

theorem colIdx_append_left {xs : List String} (ys : List String) {c : String}
    (h : c ∈ xs) : colIdx (xs ++ ys) c = colIdx xs c := by
  induction xs with
  | nil => simp at h
  | cons x xt ih =>
    by_cases hx : x = c
    · simp [colIdx, hx]
    · rcases List.mem_cons.mp h with rfl | h'
      · exact absurd rfl hx
      · simp [colIdx, hx, ih h']

theorem colIdx_append_right {xs : List String} (ys : List String) {c : String}
    (h : c ∉ xs) : colIdx (xs ++ ys) c = xs.length + colIdx ys c := by
  induction xs with
  | nil => simp [colIdx]
  | cons x xt ih =>
    have hx : x ≠ c := fun hh => h (hh ▸ List.mem_cons_self x xt)
    have h' : c ∉ xt := fun hh => h (List.mem_cons_of_mem x hh)
    simp [colIdx, hx, ih h']
    omega

theorem colIdx_lt {xs : List String} {c : String} (h : c ∈ xs) :
    colIdx xs c < xs.length := by
  induction xs with
  | nil => simp at h
  | cons x xt ih =>
    by_cases hx : x = c
    · simp [colIdx, hx]
    · rcases List.mem_cons.mp h with rfl | h'
      · exact absurd rfl hx
      · simp only [colIdx, hx, if_false, List.length_cons]
        exact Nat.succ_lt_succ (ih h')

theorem getD_colIdx {xs : List String} {c : String} (h : c ∈ xs) (d : String) :
    xs.getD (colIdx xs c) d = c := by
  induction xs with
  | nil => simp at h
  | cons x xt ih =>
    by_cases hx : x = c
    · simp [colIdx, hx]
    · rcases List.mem_cons.mp h with rfl | h'
      · exact absurd rfl hx
      · rw [show colIdx (x :: xt) c = colIdx xt c + 1 from by simp [colIdx, hx],
          List.getD_cons_succ]
        exact ih h' 

theorem getD_map_lt {α β : Type} (f : α → β) (xs : List α) (i : Nat) (d : β) (d' : α)
    (h : i < xs.length) : (xs.map f).getD i d = f (xs.getD i d') := by
  induction xs generalizing i with
  | nil => simp at h
  | cons x xt ih =>
    cases i with
    | zero => simp
    | succ n =>
      simp only [List.map_cons, List.getD_cons_succ]
      exact ih n (by simpa using h)

theorem getD_const_na (xs : List String) (k : Nat) :
    (xs.map (fun _ => Cell.na)).getD k Cell.na = Cell.na := by
  induction xs generalizing k with
  | nil => simp
  | cons x xt ih =>
    cases k with
    | zero => simp
    | succ n => simp only [List.map_cons, List.getD_cons_succ]; exact ih n

theorem pdMergeOuter_cols (l r : DataFrame) :
    (pdMergeOuter l r).cols = l.cols ++ mergeExtraCols r := rfl

theorem mem_mergeExtraCols {r : DataFrame} {c : String} (h : c ∈ mergeExtraCols r) :
    c ∈ r.cols ∧ c ∉ REF_HEADERS := by
  have h' := List.mem_filter.mp h
  refine ⟨h'.1, ?_⟩
  intro hmem
  simp [hmem] at h'

theorem cellAt_merge_left (l r : DataFrame) {lrow : List Cell}
    (hw : lrow.length = l.cols.length) (pad : List Cell) {c : String}
    (hc : c ∈ l.cols) :
    cellAt (pdMergeOuter l r) (lrow ++ pad) c = cellAt l lrow c := by
  rw [cellAt_def, pdMergeOuter_cols, colIdx_append_left _ hc,
    List.getD_append _ _ _ _ (by rw [hw]; exact colIdx_lt hc)]
  rfl

theorem cellAt_merge_pad_na (l r : DataFrame) {lrow : List Cell}
    (hw : lrow.length = l.cols.length) {c : String} (_hc : c ∈ mergeExtraCols r)
    (hcl : c ∉ l.cols) :
    cellAt (pdMergeOuter l r)
      (lrow ++ (mergeExtraCols r).map (fun _ => Cell.na)) c = Cell.na := by
  rw [cellAt_def, pdMergeOuter_cols, colIdx_append_right _ hcl,
    List.getD_append_right _ _ _ _ (by omega)]
  rw [hw, Nat.add_sub_cancel_left]
  exact getD_const_na _ _

theorem cellAt_merge_front (l r : DataFrame) (rrow : List Cell) {c : String}
    (hc : c ∈ l.cols) :
    cellAt (pdMergeOuter l r)
      (l.cols.map (fun c => if REF_HEADERS.contains c then cellAt r rrow c
        else Cell.na) ++ mergeRNonKey r rrow) c =
      if REF_HEADERS.contains c then cellAt r rrow c else Cell.na := by
  rw [cellAt_def, pdMergeOuter_cols, colIdx_append_left _ hc,
    List.getD_append _ _ _ _ (by rw [List.length_map]; exact colIdx_lt hc),
    getD_map_lt _ _ _ _ c (colIdx_lt hc), getD_colIdx hc]

theorem cellAt_merge_extra (l r : DataFrame) (rrow : List Cell) {c : String}
    (hc : c ∈ mergeExtraCols r) (hcl : c ∉ l.cols) (front : List Cell)
    (hfront : front.length = l.cols.length) :
    cellAt (pdMergeOuter l r) (front ++ mergeRNonKey r rrow) c =
      cellAt r rrow c := by
  rw [cellAt_def, pdMergeOuter_cols, colIdx_append_right _ hcl,
    List.getD_append_right _ _ _ _ (by omega)]
  rw [hfront, Nat.add_sub_cancel_left, mergeRNonKey,
    getD_map_lt _ _ _ _ c (colIdx_lt hc), getD_colIdx hc]

/-- C2: merging a new snapshot into a nonempty existing dataset by the
outer join never drops or overwrites a previously persisted column (the
existing columns remain, as a prefix, and the new frame contributes exactly
its non-key columns); every existing row whose key matches no incoming key
reappears with all its previously persisted cells unaltered and the `NaN`
"no data" marker in every newly added column — in particular, when the
incoming keys are a subset of the existing keys, every row outside that
subset is untouched; and an incoming row whose key matches no existing key
reappears with its own key and data cells, with `NaN` in every column only
the existing side has. -/
theorem c2_merge_outer_preserves (l r : DataFrame) (hne : dfEmpty l = false)
    (hwl : ∀ row ∈ l.rows, row.length = l.cols.length)
    (hdisj : ∀ c ∈ r.cols, c ∉ REF_HEADERS → c ∉ l.cols) :
    (merge_dataframes (some l) r).cols = l.cols ++ mergeExtraCols r ∧
    (∀ lrow ∈ l.rows, (∀ rrow ∈ r.rows, rowKey r rrow ≠ rowKey l lrow) →
      ∃ row' ∈ (merge_dataframes (some l) r).rows,
        (∀ c ∈ l.cols,
          cellAt (merge_dataframes (some l) r) row' c = cellAt l lrow c) ∧
        (∀ c ∈ mergeExtraCols r,
          cellAt (merge_dataframes (some l) r) row' c = Cell.na)) ∧
    (∀ rrow ∈ r.rows, (∀ lrow ∈ l.rows, rowKey l lrow ≠ rowKey r rrow) →
      ∃ row' ∈ (merge_dataframes (some l) r).rows,
        (∀ c ∈ mergeExtraCols r,
          cellAt (merge_dataframes (some l) r) row' c = cellAt r rrow c) ∧
        (∀ c ∈ l.cols, c ∈ REF_HEADERS →
          cellAt (merge_dataframes (some l) r) row' c = cellAt r rrow c) ∧
        (∀ c ∈ l.cols, c ∉ REF_HEADERS →
          cellAt (merge_dataframes (some l) r) row' c = Cell.na)) := by
  have hM : merge_dataframes (some l) r = pdMergeOuter l r := by
    simp [merge_dataframes, hne]
  rw [hM]
  refine ⟨rfl, ?_, ?_⟩
  · intro lrow hlrow hunm
    have hms : r.rows.filter (fun rrow => rowKey r rrow == rowKey l lrow) = [] :=
      List.filter_eq_nil_iff.mpr (fun rrow hr => by
        simp only [beq_iff_eq]
        exact fun hh => hunm rrow hr hh)
    have hblock : mergeLeftBlock l r lrow =
        [lrow ++ (mergeExtraCols r).map (fun _ => Cell.na)] := by
      simp [mergeLeftBlock, hms]
    refine ⟨lrow ++ (mergeExtraCols r).map (fun _ => Cell.na), ?_, ?_, ?_⟩
    · show _ ∈ l.rows.flatMap (mergeLeftBlock l r) ++ mergeRightRows l r
      refine List.mem_append_left _ (List.mem_flatMap.mpr ⟨lrow, hlrow, ?_⟩)
      rw [hblock]
      exact List.mem_singleton_self _
    · intro c hc
      exact cellAt_merge_left l r (hwl lrow hlrow) _ hc
    · intro c hc
      have hcl : c ∉ l.cols :=
        hdisj c (mem_mergeExtraCols hc).1 (mem_mergeExtraCols hc).2
      exact cellAt_merge_pad_na l r (hwl lrow hlrow) hc hcl
  · intro rrow hr hunm
    have hany : l.rows.any (fun lrow => rowKey l lrow == rowKey r rrow) = false := by
      apply List.any_eq_false.mpr
      intro lrow hl
      simp only [beq_iff_eq]
      exact fun hh => hunm lrow hl hh
    refine ⟨l.cols.map (fun c => if REF_HEADERS.contains c then cellAt r rrow c
        else Cell.na) ++ mergeRNonKey r rrow, ?_, ?_, ?_, ?_⟩
    · show _ ∈ l.rows.flatMap (mergeLeftBlock l r) ++ mergeRightRows l r
      refine List.mem_append_right _ ?_
      unfold mergeRightRows
      refine List.mem_map.mpr ⟨rrow, List.mem_filter.mpr ⟨hr, ?_⟩, rfl⟩
      simp [hany]
    · intro c hc
      have hcl : c ∉ l.cols :=
        hdisj c (mem_mergeExtraCols hc).1 (mem_mergeExtraCols hc).2
      exact cellAt_merge_extra l r rrow hc hcl _ (by simp)
    · intro c hc href
      rw [cellAt_merge_front l r rrow hc]
      simp [href]
    · intro c hc href
      rw [cellAt_merge_front l r rrow hc]
      simp [href]

/-! ### Claim C3: session indices and the timestamp registry -/

theorem runSession_nil (g : Option DataFrame) (reg : Registry) (start : Nat) :
    runSession g reg start [] = (g, reg) := rfl

theorem runSession_cons (g : Option DataFrame) (reg : Registry) (start : Nat)
    (f : InputFile) (fs : List InputFile) :
    runSession g reg start (f :: fs) =
      runSession (sessionStep (g, reg) (start, f)).1
        (sessionStep (g, reg) (start, f)).2 (start + 1) fs := rfl

theorem regSet_fresh {reg : Registry} {k : String} (h : ∀ p ∈ reg, p.1 ≠ k)
    (v : String) : regSet reg k v = reg ++ [(k, v)] := by
  have hany : reg.any (fun p => p.1 = k) = false := by
    apply List.any_eq_false.mpr
    intro p hp
    simp [h p hp]
  unfold regSet
  rw [if_neg (by simp [hany])]

theorem runSession_reg_append :
    ∀ (files : List InputFile) (g : Option DataFrame) (reg : Registry) (start : Nat),
      (∀ p ∈ reg, ∃ n, p.1 = natToStr n ∧ n < start) →
      ∃ tail, (runSession g reg start files).2 = reg ++ tail ∧
        (∀ q ∈ tail, ∃ m, q.1 = natToStr m ∧ start ≤ m ∧ m < start + files.length) ∧
        tail.Pairwise (fun a b => pyInt a.1 < pyInt b.1) := by
  intro files
  induction files with
  | nil =>
    intro g reg start h
    exact ⟨[], by simp [runSession_nil], by simp, List.Pairwise.nil⟩
  | cons f fs ih =>
    intro g reg start h
    rw [runSession_cons]
    cases hpf : process_input_file f start with
    | error e =>
      have hstep : sessionStep (g, reg) (start, f) = (g, reg) := by
        simp [sessionStep, hpf]
      rw [hstep]
      obtain ⟨tail, h1, h2, h3⟩ := ih g reg (start + 1)
        (fun p hp => by
          obtain ⟨n, hn, hlt⟩ := h p hp
          exact ⟨n, hn, by omega⟩)
      refine ⟨tail, h1, ?_, h3⟩
      intro q hq
      obtain ⟨m, hm, h5, h6⟩ := h2 q hq
      exact ⟨m, hm, by omega, by simp only [List.length_cons]; omega⟩
    | ok res =>
      have hstep : sessionStep (g, reg) (start, f) =
          (some (merge_dataframes g res.1), regSet reg (natToStr start) res.2) := by
        simp [sessionStep, hpf]
      rw [hstep]
      have hfresh : ∀ p ∈ reg, p.1 ≠ natToStr start := by
        intro p hp hcontra
        obtain ⟨n, hn, hlt⟩ := h p hp
        rw [hn] at hcontra
        exact absurd (natToStr_inj hcontra) (by omega)
      rw [regSet_fresh hfresh]
      obtain ⟨tail, h1, h2, h3⟩ := ih (some (merge_dataframes g res.1))
        (reg ++ [(natToStr start, res.2)]) (start + 1)
        (fun p hp => by
          rcases List.mem_append.mp hp with hp' | hp'
          · obtain ⟨n, hn, hlt⟩ := h p hp'
            exact ⟨n, hn, by omega⟩
          · rw [List.mem_singleton.mp hp']
            exact ⟨start, rfl, by omega⟩)
      refine ⟨(natToStr start, res.2) :: tail, ?_, ?_, ?_⟩
      · rw [h1, List.append_assoc, List.singleton_append]
      · intro q hq
        rcases List.mem_cons.mp hq with rfl | hq'
        · exact ⟨start, rfl, Nat.le_refl _, by simp only [List.length_cons]; omega⟩
        · obtain ⟨m, hm, h5, h6⟩ := h2 q hq'
          exact ⟨m, hm, by omega, by simp only [List.length_cons]; omega⟩
      · refine List.Pairwise.cons ?_ h3
        intro q hq
        obtain ⟨m, hm, h5, _⟩ := h2 q hq
        rw [hm]
        show pyInt (natToStr start) < pyInt (natToStr m)
        rw [pyInt_natToStr, pyInt_natToStr]
        omega

/-- C3 (amended): every FileIndex actually recorded in the TimestampRegistry
during a session is strictly greater than every index already in the
registry (hence than every index recorded in earlier sessions), the indices
recorded within one session are strictly increasing, and the registry is
append-only — no existing entry is overwritten.  (The unamended claim —
covering indices merely *assigned* to files, including failed ones — is
refuted by `c3_counterexample`: a failed file's index is not registered and
is reassigned to a different file in the next session.) -/
theorem c3_registry_monotone_append (g : Option DataFrame) (reg : Registry)
    (files : List InputFile)
    (hcanon : ∀ p ∈ reg, ∃ n : Nat, p.1 = natToStr n) :
    ∃ tail, (process_data_loop g reg files).2 = reg ++ tail ∧
      (∀ q ∈ tail, ∃ m, q.1 = natToStr m ∧ nextFileIndex reg ≤ m) ∧
      tail.Pairwise (fun a b => pyInt a.1 < pyInt b.1) ∧
      (∀ p ∈ reg, ∀ q ∈ tail, pyInt p.1 < pyInt q.1) := by
  have hlt : ∀ p ∈ reg, ∃ n, p.1 = natToStr n ∧ n < nextFileIndex reg := by
    intro p hp
    obtain ⟨n, hn⟩ := hcanon p hp
    refine ⟨n, hn, ?_⟩
    have h1 : pyInt p.1 ≤ maxKeyVal reg := maxKeyVal_ge hp
    rw [hn, pyInt_natToStr] at h1
    have hne : reg ≠ [] := by rintro rfl; simp at hp
    simp only [nextFileIndex, List.isEmpty_iff, if_neg hne]
    omega
  obtain ⟨tail, h1, h2, h3⟩ :=
    runSession_reg_append files g reg (nextFileIndex reg) hlt
  refine ⟨tail, h1, ?_, h3, ?_⟩
  · intro q hq
    obtain ⟨m, hm, hge, _⟩ := h2 q hq
    exact ⟨m, hm, hge⟩
  · intro p hp q hq
    obtain ⟨n, hn, hlt'⟩ := hlt p hp
    obtain ⟨m, hm, hge, _⟩ := h2 q hq
    rw [hn, pyInt_natToStr, hm, pyInt_natToStr]
    omega

/-! ### Claim C9: column set under ingestion order -/

theorem process_input_file_of_ok {f : InputFile} (hok : ingestOk f = true)
    (i : Nat) : process_input_file f i =
      Except.ok (buildCombined (chosenDf f) i, f.timestamp) := by
  unfold ingestOk at hok
  cases hres : resolveHeader f with
  | error e => rw [hres] at hok; exact absurd hok (by simp)
  | ok df =>
    rw [hres] at hok
    have hb : (DATA_HEADERS.all fun h => df.cols.contains h) = true := hok
    have hp : ∀ x ∈ DATA_HEADERS, x ∈ df.cols := by simpa using hb
    unfold process_input_file chosenDf
    rw [hres]
    simp
    exact hp

theorem buildCombined_cols (df : StrFrame) (i : Nat) :
    (buildCombined df i).cols = REF_HEADERS ++ sufCols i := rfl

theorem mergeExtraCols_buildCombined (df : StrFrame) (i : Nat) :
    mergeExtraCols (buildCombined df i) = sufCols i := by
  unfold mergeExtraCols
  rw [buildCombined_cols, List.filter_append]
  have h1 : REF_HEADERS.filter (fun c => !(REF_HEADERS.contains c)) = [] := by decide
  have h2 : (sufCols i).filter (fun c => !(REF_HEADERS.contains c)) = sufCols i := by
    apply List.filter_eq_self.mpr
    intro c hc
    obtain ⟨b, hb, rfl⟩ := List.mem_map.mp hc
    simp [colName_not_ref b i]
  rw [h1, h2, List.nil_append]

theorem mergeLeftBlock_ne_nil (l r : DataFrame) (lrow : List Cell) :
    mergeLeftBlock l r lrow ≠ [] := by
  unfold mergeLeftBlock
  by_cases hms : (r.rows.filter (fun rrow => rowKey r rrow == rowKey l lrow)).isEmpty
  · simp [hms]
  · simp only [hms, if_false]
    simp only [List.isEmpty_iff] at hms
    simp [hms]

theorem pdMergeOuter_rows_ne_nil (l r : DataFrame) (h : l.rows ≠ []) :
    (pdMergeOuter l r).rows ≠ [] := by
  show l.rows.flatMap (mergeLeftBlock l r) ++ mergeRightRows l r ≠ []
  cases hl : l.rows with
  | nil => exact absurd hl h
  | cons x xs =>
    simp only [List.flatMap_cons, List.append_assoc]
    intro hcontra
    rcases List.append_eq_nil.mp hcontra with ⟨h1, _⟩
    exact mergeLeftBlock_ne_nil l r x h1

theorem dsState_some (d : DataFrame) : dsState (some d) = (d.cols, !dfEmpty d) := rfl

theorem dsState_merge (g : Option DataFrame) (df : StrFrame) (i : Nat)
    (hrows : df.rows ≠ []) :
    dsState (some (merge_dataframes g (buildCombined df i))) =
      stepCols (dsState g) i := by
  have hbrows : (buildCombined df i).rows ≠ [] := by
    show df.rows.map _ ≠ []
    simp [hrows]
  have hbempty : dfEmpty (buildCombined df i) = false := by
    unfold dfEmpty
    rw [buildCombined_cols]
    simp [List.isEmpty_iff, hbrows, REF_HEADERS]
  have hbuild : dsState (some (buildCombined df i)) =
      (REF_HEADERS ++ sufCols i, true) := by
    rw [dsState_some, hbempty, buildCombined_cols]
    rfl
  cases g with
  | none =>
    show dsState (some (buildCombined df i)) = stepCols ([], false) i
    rw [hbuild]
    rfl
  | some d =>
    by_cases hd : dfEmpty d = true
    · have hmerge : merge_dataframes (some d) (buildCombined df i) =
          buildCombined df i := by simp [merge_dataframes, hd]
      rw [hmerge, hbuild, dsState_some, hd]
      rfl
    · have hd' : dfEmpty d = false := by
        cases hdd : dfEmpty d
        · rfl
        · exact absurd hdd hd
      have hmerge : merge_dataframes (some d) (buildCombined df i) =
          pdMergeOuter d (buildCombined df i) := by simp [merge_dataframes, hd']
      have hdr : d.rows ≠ [] := by
        intro hcontra
        unfold dfEmpty at hd'
        rw [hcontra] at hd'
        simp at hd'
      have hdc : d.cols ≠ [] := by
        intro hcontra
        unfold dfEmpty at hd'
        rw [hcontra] at hd'
        simp at hd'
      have hprows : (pdMergeOuter d (buildCombined df i)).rows ≠ [] :=
        pdMergeOuter_rows_ne_nil _ _ hdr
      have hpcols : (pdMergeOuter d (buildCombined df i)).cols =
          d.cols ++ sufCols i := by
        rw [pdMergeOuter_cols, mergeExtraCols_buildCombined]
      have hpempty : dfEmpty (pdMergeOuter d (buildCombined df i)) = false := by
        unfold dfEmpty
        rw [hpcols]
        simp [List.isEmpty_iff, List.append_eq_nil, hprows, hdc]
      rw [hmerge, dsState_some, hpempty, hpcols, dsState_some, hd']
      rfl

theorem colsOf_dsState (g : Option DataFrame) : colsOf g = (dsState g).1 := by
  cases g <;> rfl

theorem runSession_dsState :
    ∀ (files : List InputFile) (g : Option DataFrame) (reg : Registry) (start : Nat),
      (∀ f ∈ files, ingestOk f = true ∧ (chosenDf f).rows ≠ []) →
      dsState (runSession g reg start files).1 =
        sessionColsState (dsState g) start files.length := by
  intro files
  induction files with
  | nil => intro g reg start h; rfl
  | cons f fs ih =>
    intro g reg start h
    obtain ⟨hok, hrows⟩ := h f (List.mem_cons_self f fs)
    rw [runSession_cons]
    have hpf := process_input_file_of_ok hok start
    have hstep : sessionStep (g, reg) (start, f) =
        (some (merge_dataframes g (buildCombined (chosenDf f) start)),
          regSet reg (natToStr start) f.timestamp) := by
      simp [sessionStep, hpf]
    rw [hstep]
    rw [ih _ _ _ (fun x hx => h x (List.mem_cons_of_mem f hx))]
    rw [dsState_merge g _ start hrows]
    rfl

/-- C9 (amended): for a fixed multiset of input files that all ingest
successfully *and each contain at least one data row*, the column list of
the final merged dataset is the same for every ingestion order, whatever
the starting dataset and registries; index (and timestamp) attribution
itself remains order-dependent.  (The row-count proviso is forced by
`c9_counterexample`: a zero-row snapshot is `empty` for pandas, so when it
arrives while the accumulated dataset is still empty its columns are
silently dropped, and the final column set then depends on the order.) -/
theorem c9_columns_order_invariant (g : Option DataFrame) (reg₁ reg₂ : Registry)
    (start : Nat) (files₁ files₂ : List InputFile) (hperm : files₁.Perm files₂)
    (hok : ∀ f ∈ files₁, ingestOk f = true ∧ (chosenDf f).rows ≠ []) :
    colsOf (runSession g reg₁ start files₁).1 =
      colsOf (runSession g reg₂ start files₂).1 := by
  have hok₂ : ∀ f ∈ files₂, ingestOk f = true ∧ (chosenDf f).rows ≠ [] :=
    fun f hf => hok f (hperm.mem_iff.mpr hf)
  have h1 := runSession_dsState files₁ g reg₁ start hok
  have h2 := runSession_dsState files₂ g reg₂ start hok₂
  rw [colsOf_dsState, colsOf_dsState, h1, h2, hperm.length_eq]

/-! ### Counterexamples and witnesses -/

/-- C3 counterexample: over an empty registry the session on
`[fileGood, fileBad]` enumerates the two files with indices 1 and 2;
`fileBad` fails, so only index 1 is registered, and the next session starts
at index 2 again — the index assigned to `fileBad` is reassigned to the
different file `fileGood2`, so an assigned FileIndex is neither strictly
greater than all earlier-assigned ones nor never reused. -/
theorem c3_counterexample :
    nextFileIndex [] = 1 ∧
    (enumerateFrom (nextFileIndex []) [fileGood, fileBad]).map Prod.fst = [1, 2] ∧
    (runSession none [] (nextFileIndex []) [fileGood, fileBad]).2 =
      [(natToStr 1, "01/02/2025")] ∧
    nextFileIndex
      ((runSession none [] (nextFileIndex []) [fileGood, fileBad]).2) = 2 ∧
    (enumerateFrom (nextFileIndex ((runSession none [] (nextFileIndex [])
      [fileGood, fileBad]).2)) [fileGood2]).map Prod.fst = [2] := by
  refine ⟨rfl, by decide, by decide, by decide, by decide⟩

/-- C3 witness: the amended registry theorem applied to a one-entry
registry and one further successful file. -/
theorem c3_witness :
    ∃ tail, (process_data_loop none [(natToStr 1, "01/01/2025")] [fileGood2]).2 =
        [(natToStr 1, "01/01/2025")] ++ tail ∧
      (∀ q ∈ tail, ∃ m, q.1 = natToStr m ∧
        nextFileIndex [(natToStr 1, "01/01/2025")] ≤ m) ∧
      tail.Pairwise (fun a b => pyInt a.1 < pyInt b.1) ∧
      (∀ p ∈ [(natToStr 1, "01/01/2025")], ∀ q ∈ tail, pyInt p.1 < pyInt q.1) :=
  c3_registry_monotone_append none [(natToStr 1, "01/01/2025")] [fileGood2] (by
    intro p hp
    rw [List.mem_singleton] at hp
    subst hp
    exact ⟨1, rfl⟩)

/-- C2 witness: the merge-preservation theorem applied to two concrete
one-row frames with disjoint keys. -/
theorem c2_witness :
    dfEmpty dfL = false ∧
    (merge_dataframes (some dfL) dfR).cols = dfL.cols ++ mergeExtraCols dfR :=
  ⟨by decide, (c2_merge_outer_preserves dfL dfR (by decide) (by decide)
    (by decide)).1⟩

/-- C4 witness: the start-index theorem applied to a one-entry registry. -/
theorem c4_witness :
    nextFileIndex [(natToStr 2, "a")] = maxKeyVal [(natToStr 2, "a")] + 1 ∧
    pyInt (natToStr 2) < nextFileIndex [(natToStr 2, "a")] :=
  ⟨c4_nextFileIndex_spec.2.1 [(natToStr 2, "a")] (by decide),
   c4_nextFileIndex_spec.2.2.1 [(natToStr 2, "a")] (natToStr 2, "a") (by decide)⟩

/-- C5 witness: the header-fallback theorem applied to `fileBad`, whose two
candidate header rows both lack the reference headers. -/
theorem c5_witness :
    process_input_file fileBad 5 = Except.error (headerErrMsg "bad.xlsx") ∧
    runSession none [] 5 [fileBad] = runSession none [] 6 [] :=
  ⟨c5_header_fallback_and_skip.2.2.1 fileBad 5 (by decide) (by decide),
   c5_header_fallback_and_skip.2.2.2 none [] 5 fileBad [] _
     (c5_header_fallback_and_skip.2.2.1 fileBad 5 (by decide) (by decide))⟩

/-- C6 witness: the layered-header theorem applied to a concrete frame with
the three reference columns and the suffixed column `ADD_1`. -/
theorem c6_witness :
    (write_df_custom dfW regW).header1[3]? = some (regGet regW (natToStr 1)) ∧
    (write_df_custom dfW regW).header2[3]? = some "ADD" ∧
    (write_df_custom dfW regW).header1[0]? = some "" ∧
    (write_df_custom dfW regW).header2[0]? = some "Descr" :=
  ⟨(c6_write_df_custom_layered_header.2.2 dfW regW 3 "ADD" 1 (by decide)).1,
   (c6_write_df_custom_layered_header.2.2 dfW regW 3 "ADD" 1 (by decide)).2,
   (c6_write_df_custom_layered_header.2.1 dfW regW 0 "Descr" (by decide)
     (by decide)).1,
   (c6_write_df_custom_layered_header.2.1 dfW regW 0 "Descr" (by decide)
     (by decide)).2⟩

/-- C7 witness: the classifier theorem applied to an unknown category name,
which yields an empty table with the same columns. -/
theorem c7_witness :
    (filter_category_data ⟨["Descr"], [[Cell.str "x"]]⟩ "OTHER").cols = ["Descr"] ∧
    (filter_category_data ⟨["Descr"], [[Cell.str "x"]]⟩ "OTHER").rows = [] :=
  c7_filter_category_matches_spec.2.2.2.2.1 ⟨["Descr"], [[Cell.str "x"]]⟩ "OTHER"
    (by decide) (by decide)

/-- C9 counterexample: `fileEmptyRows` ingests successfully but has no data
rows, so its snapshot is `empty` for pandas; ingested first it is silently
replaced by the next snapshot and its columns vanish, while ingested second
its columns survive — the final column set depends on the ingestion
order. -/
theorem c9_counterexample :
    colsOf (runSession none [] 1 [fileEmptyRows, fileGood]).1 ≠
      colsOf (runSession none [] 1 [fileGood, fileEmptyRows]).1 := by
  decide

/-- C9 witness: the amended order-invariance theorem applied to the two
orders of two nonempty successful files. -/
theorem c9_witness :
    colsOf (runSession none [] 1 [fileGood, fileGood2]).1 =
      colsOf (runSession none [] 1 [fileGood2, fileGood]).1 :=
  c9_columns_order_invariant none [] [] 1 [fileGood, fileGood2]
    [fileGood2, fileGood] (List.Perm.swap fileGood2 fileGood []) (by decide)
